import Mathlib

/-!
Verification development for the waybar pacman-updates monitor.

The Rust sources are embedded shallowly:
* pure string manipulation is translated to functions on `List Char`
  (Rust `str` methods are modelled on the character list of the string,
  after the `from_utf8_lossy` conversion the code always applies);
* external process invocations are modelled by passing the process
  outcome (`SpawnResult`) as an explicit argument;
* Rust functions that can panic are modelled as `Except String`-valued
  functions, where `Except.error` marks the panic;
* machine integers are modelled as `Nat`, with an explicit `% 2 ^ 16`
  where the code casts a count to `u16`.

Whitespace is modelled by `Char.isWhitespace`, which covers the ASCII
whitespace produced by the external tools (the Rust code uses the full
Unicode class; no claim here depends on non-ASCII whitespace).
-/

/-- Whitespace predicate used by the embedded tokenizers. -/
def wsChar (c : Char) : Bool := c.isWhitespace

/-- Numeric value of a digit list, most significant first. -/
def digitsToNat (l : List Char) : Nat :=
  l.foldl (fun a c => a * 10 + (c.toNat - 48)) 0

/-- Split a character list on newline characters, keeping empty segments.
Auxiliary for the model of Rust str lines. -/
def splitNl : List Char → List Char → List (List Char)
  | [], acc => [acc.reverse]
  | '\n' :: rest, acc => acc.reverse :: splitNl rest []
  | c :: rest, acc => splitNl rest (c :: acc)

/-- Strip one trailing carriage return, as Rust str lines does. -/
def stripCr (l : List Char) : List Char :=
  match l.getLast? with
  | some '\r' => l.dropLast
  | _ => l

/-- Model of Rust str lines: split on newlines, drop the final empty
segment produced by a trailing newline, strip a trailing carriage return
from each line. -/
def rustLines (s : String) : List String :=
  if s.toList = [] then []
  else
    let parts := splitNl s.toList []
    let parts := if parts.getLast? = some [] then parts.dropLast else parts
    (parts.map stripCr).map List.asString

/-- Model of Rust str split_whitespace on a character list. -/
def splitWs : List Char → List Char → List (List Char)
  | [], acc => if acc = [] then [] else [acc.reverse]
  | c :: rest, acc =>
    if wsChar c then
      if acc = [] then splitWs rest [] else acc.reverse :: splitWs rest []
    else splitWs rest (c :: acc)

/-- Whitespace-delimited tokens of a string, as Rust split_whitespace. -/
def wordsOf (s : String) : List (List Char) := splitWs s.toList []

/-! ## Model of the semantic-version collaborator

`lib.rs` classifies updates with `lenient_semver::parse`, an external
crate (the spec lists it among the excluded collaborators).  The model
below follows the interface the spec gives it: a permissive parse into
major / minor / patch numbers plus a pre-release component, with
missing numeric components defaulting to zero and textual suffixes
tolerated; pre-release components are ordered by the semver rules
(numeric identifiers below alphanumeric ones, an absent pre-release
above any present one). -/

/-- One pre-release identifier: numeric or alphanumeric. -/
inductive PreId where
  | num (n : Nat)
  | alpha (s : String)
deriving DecidableEq

/-- Strict order on pre-release identifiers (semver rules). -/
def preIdLt : PreId → PreId → Bool
  | PreId.num a, PreId.num b => decide (a < b)
  | PreId.num _, PreId.alpha _ => true
  | PreId.alpha _, PreId.num _ => false
  | PreId.alpha a, PreId.alpha b => decide (a < b)

/-- Lexicographic order on nonempty pre-release identifier lists;
a strict prefix is smaller. -/
def preListLt : List PreId → List PreId → Bool
  | [], [] => false
  | [], _ :: _ => true
  | _ :: _, [] => false
  | a :: as_, b :: bs => if preIdLt a b then true else if preIdLt b a then false else preListLt as_ bs

/-- Strict order on pre-release components: the empty component (no
pre-release) is the greatest. -/
def preLt : List PreId → List PreId → Bool
  | [], _ => false
  | _ :: _, [] => true
  | a :: as_, b :: bs => preListLt (a :: as_) (b :: bs)

/-- Parsed lenient semantic version. -/
structure SemVer where
  major : Nat
  minor : Nat
  patch : Nat
  pre : List PreId
deriving DecidableEq

/-- Split a character list on dots. -/
def splitDots : List Char → List Char → List (List Char)
  | [], acc => [acc.reverse]
  | '.' :: rest, acc => acc.reverse :: splitDots rest []
  | c :: rest, acc => splitDots rest (c :: acc)

/-- Classify one pre-release identifier as numeric or alphanumeric. -/
def toPreId (l : List Char) : PreId :=
  if l ≠ [] ∧ l.all Char.isDigit then PreId.num (digitsToNat l) else PreId.alpha l.asString

/-- Pre-release component of the textual remainder after the numeric
components: strip one leading separator, split on dots, drop empties. -/
def preOfRemainder (l : List Char) : List PreId :=
  let body :=
    match l with
    | '-' :: rest => rest
    | '.' :: rest => rest
    | other => other
  ((splitDots body []).filter (fun seg => seg ≠ [])).map toPreId

/-- Model of the external lenient semantic-version parse: a required
numeric major, optional dotted numeric minor and patch (defaulting to
zero), arbitrary tolerated remainder as pre-release text. -/
def lenientParse (s : String) : Option SemVer :=
  let l := s.toList
  let d1 := l.takeWhile Char.isDigit
  let r1 := l.dropWhile Char.isDigit
  if d1 = [] then none
  else
    match r1 with
    | '.' :: r2 =>
      let d2 := r2.takeWhile Char.isDigit
      let r3 := r2.dropWhile Char.isDigit
      if d2 = [] then some ⟨digitsToNat d1, 0, 0, preOfRemainder r1⟩
      else
        match r3 with
        | '.' :: r4 =>
          let d3 := r4.takeWhile Char.isDigit
          let r5 := r4.dropWhile Char.isDigit
          if d3 = [] then some ⟨digitsToNat d1, digitsToNat d2, 0, preOfRemainder r3⟩
          else some ⟨digitsToNat d1, digitsToNat d2, digitsToNat d3, preOfRemainder r5⟩
        | _ => some ⟨digitsToNat d1, digitsToNat d2, 0, preOfRemainder r3⟩
    | _ => some ⟨digitsToNat d1, 0, 0, preOfRemainder r1⟩

/-- Standard semantic-version strict order: major, minor, patch, then
pre-release (absent pre-release greatest). -/
def semverLt (a b : SemVer) : Bool :=
  if a.major ≠ b.major then decide (a.major < b.major)
  else if a.minor ≠ b.minor then decide (a.minor < b.minor)
  else if a.patch ≠ b.patch then decide (a.patch < b.patch)
  else preLt a.pre b.pre

/-! ## The magnitude classifier (lib.rs, Package::determine_update_type) -/

/-- Update magnitude, from lib.rs. -/
inductive UpdateType where
  | Major
  | Minor
  | Patch
  | Pre
  | Other
deriving DecidableEq

/-- Embedding of Package::determine_update_type from lib.rs, as a
function of the two parse outcomes delivered by the semver
collaborator: an ordered if/else chain on the parsed components, with
Other whenever either parse failed. -/
def determine_update_type (old_parsed new_parsed : Option SemVer) : UpdateType :=
  match old_parsed, new_parsed with
  | some old, some new =>
    if new.major > old.major then UpdateType.Major
    else if new.minor > old.minor then UpdateType.Minor
    else if new.patch > old.patch then UpdateType.Patch
    else if preLt old.pre new.pre then UpdateType.Pre
    else UpdateType.Other
  | _, _ => UpdateType.Other

/-- determine_update_type applied to version strings through the
modelled collaborator parse. -/
def determine_update_type_str (old_ver new_ver : String) : UpdateType :=
  determine_update_type (lenientParse old_ver) (lenientParse new_ver)

/-! ## The version comparator (crate function is_version_newer)

Modelled from the spec: the function is_version_newer is exported by
the crate and used by main.rs and the unit tests, but its definition is
not among the given sources.  The spec (section 4.1) describes a
three-tier algorithm: a revision-tag tier comparing extracted integers
of an r-digits-dot tag, then a lenient semantic-version tier, then a
conservative lexical fallback (newer only when the strings differ and
the candidate sorts after the baseline).  The repository unit test
asserting that 0.48.0.r62.gd775686-1 is newer than 0.47.0.r63.ccdddddd-2
forces the revision tag to be recognised only at the start of the
string, not anywhere inside it, so the model anchors the tag there.
The mixed semantic/revision unit tests exercise the package-manager
delegated variant the spec mentions as an alternative; the model
follows the primary three-tier description. -/

/-- Revision tag at the head of a character list: the letter r followed
by one or more digits followed by a dot; yields the digits value. -/
def revTagAt (l : List Char) : Option Nat :=
  match l with
  | 'r' :: rest =>
    let ds := rest.takeWhile Char.isDigit
    let rest2 := rest.dropWhile Char.isDigit
    if ds ≠ [] ∧ rest2.head? = some '.' then some (digitsToNat ds) else none
  | _ => none

/-- Revision tag anchored at the start of the version string. -/
def startRevision (s : String) : Option Nat := revTagAt s.toList

/-- Revision tag found anywhere in the character list (first match).
This is the reading used by the claim under scrutiny, kept for
comparison with the anchored extraction the tests force. -/
def revTagAnywhere : List Char → Option Nat
  | [] => none
  | c :: rest =>
    match revTagAt (c :: rest) with
    | some n => some n
    | none => revTagAnywhere rest

/-- True when the string contains an r-digits-dot tag anywhere. -/
def containsRevTag (s : String) : Bool := (revTagAnywhere s.toList).isSome

/-- Modelled from the spec: the crate function is_version_newer
(missing from the given sources), per the three-tier algorithm of
spec section 4.1, with the revision tag anchored at the start of the
string as the repository unit tests require. -/
def is_version_newer (candidate baseline : String) : Bool :=
  match startRevision candidate, startRevision baseline with
  | some c, some b => decide (b < c)
  | _, _ =>
    match lenientParse candidate, lenientParse baseline with
    | some cv, some bv => semverLt bv cv
    | _, _ => decide (candidate ≠ baseline) && decide (baseline < candidate)

/-! ## Update records and line parsing (lib.rs) -/

/-- One discovered update record, from lib.rs. -/
structure Package where
  name : String
  old_version : String
  new_version : String
  update_type : UpdateType
deriving DecidableEq

/-- Greedy span of a maximal nonempty run of characters satisfying a
predicate at the head of the list, with the remainder; none when the
run is empty. -/
def spanPos (p : Char → Bool) (l : List Char) : Option (List Char × List Char) :=
  if l.takeWhile p = [] then none else some (l.takeWhile p, l.dropWhile p)

/-- A nonempty non-whitespace run (backslash-S plus of the regex). -/
def spanTok : List Char → Option (List Char × List Char) :=
  spanPos (fun c => !wsChar c)

/-- A nonempty whitespace run (backslash-s plus of the regex). -/
def spanWs : List Char → Option (List Char × List Char) :=
  spanPos wsChar

/-- Embedding of the anchored regex of lib.rs matching
caret (backslash-S plus) whitespace-run (backslash-S plus)
whitespace-run, the literal arrow, whitespace-run, (backslash-S plus)
dollar.  The greedy runs make the regex match deterministic, so the
match is computed by a single left-to-right scan. -/
def tryFromChars (l : List Char) : Option (List Char × List Char × List Char) :=
  match spanTok l with
  | none => none
  | some (t1, r1) =>
    match spanWs r1 with
    | none => none
    | some (_, r2) =>
      match spanTok r2 with
      | none => none
      | some (t2, r3) =>
        match spanWs r3 with
        | none => none
        | some (_, r4) =>
          match r4 with
          | '-' :: '>' :: r5 =>
            match spanWs r5 with
            | none => none
            | some (_, r6) =>
              match spanTok r6 with
              | none => none
              | some (t3, r7) => if r7 = [] then some (t1, t2, t3) else none
          | _ => none

/-- Embedding of TryFrom String for Package from lib.rs: regex capture
of name, old version and new version, classification of the magnitude,
or an error for a non-matching line. -/
def Package.tryFrom (s : String) : Except String Package :=
  match tryFromChars s.toList with
  | some (n, o, v) =>
    Except.ok
      ⟨n.asString, o.asString, v.asString,
        determine_update_type_str o.asString v.asString⟩
  | none => Except.error "invalid format"

/-- Snapshot derivation shared by both repositories: parse each line of
the tool output, keeping successfully parsed lines and silently
dropping the rest, as the filter_map over Package try_from in lib.rs. -/
def packagesOfLines (lines : List String) : List Package :=
  lines.filterMap (fun l => (Package.tryFrom l).toOption)

/-- Parse a whole stdout text into a snapshot, as lib.rs does with
str lines followed by the filter_map. -/
def parsePackages (stdout : String) : List Package :=
  packagesOfLines (rustLines stdout)

/-! ## External process outcomes -/

/-- Outcome of a completed external command: exit code (none when the
process was terminated by a signal) and its captured stdout, already
decoded by the lossy UTF-8 conversion the code applies. -/
structure CmdOutput where
  exitCode : Option Int
  stdout : String
deriving DecidableEq

/-- Result of running an external command: either the completed output
or a spawn error. -/
inductive SpawnResult where
  | ok (out : CmdOutput)
  | err (msg : String)
deriving DecidableEq

/-- Exit-status success test, as ExitStatus success in Rust. -/
def CmdOutput.success (out : CmdOutput) : Bool := out.exitCode = some 0

/-! ## OfficialRepo and AURepo (lib.rs) -/

/-- Embedding of OfficialRepo common_updates from lib.rs: on success
the snapshot is replaced by the parsed stdout, on a non-success exit or
a spawn error the previous snapshot is kept (the spawn error is only
logged).  The checkupdates invocation is represented by its outcome. -/
def common_updates (prev : List Package) (res : SpawnResult) : List Package :=
  match res with
  | SpawnResult.ok out => if out.success then parsePackages out.stdout else prev
  | SpawnResult.err _ => prev

/-- Embedding of AURepo local_updates from lib.rs: an empty body. -/
def AURepo.local_updates (packages : List Package) : List Package :=
  packages

/-- Embedding of AURepo sync_updates from lib.rs: if spawning pacman
fails the snapshot is kept; otherwise the aur vercmp outcome replaces
the snapshot exactly on a success exit and keeps it in every other
case. -/
def AURepo.sync_updates (prev : List Package) (pacmanSpawn : SpawnResult)
    (aurRes : SpawnResult) : List Package :=
  match pacmanSpawn with
  | SpawnResult.err _ => prev
  | SpawnResult.ok _ =>
    match aurRes with
    | SpawnResult.ok out => if out.success then parsePackages out.stdout else prev
    | SpawnResult.err _ => prev

/-! ## main.rs: local check, network sync, AUR cache -/

/-- Reduction to the u16 range, for the casts to u16 in main.rs. -/
def wrap16 (n : Nat) : Nat := n % 2 ^ 16

/-- Wrapping u16 subtraction, for the count minus one in get_updates
(release-profile wrapping semantics of Rust integer arithmetic). -/
def sub16 (a b : Nat) : Nat := (wrap16 a + 2 ^ 16 - wrap16 b) % 2 ^ 16

/-- Leftmost non-overlapping occurrences of the four-character arrow
separator (space, dash, greater-than, space) in a character list, as
the Rust split on that pattern counts them. -/
def countArrowSep : List Char → Nat
  | ' ' :: '-' :: '>' :: ' ' :: rest => countArrowSep rest + 1
  | _ :: rest => countArrowSep rest
  | [] => 0

/-- Number of segments of the Rust split of a string on the arrow
separator: one more than the number of separator occurrences. -/
def arrowSegments (s : String) : Nat := countArrowSep s.toList + 1

/-- Embedding of sync_database from main.rs: the checkupdates output is
discarded and its exit status ignored, but a spawn failure hits the
expect call and panics, modelled by the error case. -/
def sync_database (res : SpawnResult) : Except String Unit :=
  match res with
  | SpawnResult.ok _ => Except.ok ()
  | SpawnResult.err _ => Except.error "failed to execute process"

/-- Embedding of get_updates from main.rs: a spawn failure hits the
expect call and panics (error case); with an exit code present, an
empty stdout yields the pair of zero and the empty string, and a
non-empty stdout yields its arrow-separator segment count cast to u16
minus one together with the stdout verbatim; a signal-terminated
process yields the zero pair. -/
def get_updates (res : SpawnResult) : Except String (Nat × String) :=
  match res with
  | SpawnResult.err _ => Except.error "failed to execute process"
  | SpawnResult.ok out =>
    match out.exitCode with
    | some _ =>
      if out.stdout = "" then Except.ok (0, "")
      else Except.ok (sub16 (wrap16 (arrowSegments out.stdout)) 1, out.stdout)
    | none => Except.ok (0, "")

/-- The AUR cache of main.rs: last update timestamp, update count and
rendered text, the triple behind the mutex. -/
structure AurCache where
  lastUpdate : Option Nat
  count : Nat
  text : String
deriving DecidableEq

/-- One AUR package as returned by the remote API. -/
structure AurPkg where
  name : String
  version : String
deriving DecidableEq

/-- Outcome of the remote AUR API query. -/
inductive ApiResult where
  | ok (pkgs : List AurPkg)
  | err
deriving DecidableEq

/-- Locally installed AUR packages parsed from the pacman query output:
the first two whitespace tokens of each line, lines with fewer tokens
skipped, as in sync_aur_database. -/
def parseQm (stdout : String) : List (String × String) :=
  (rustLines stdout).filterMap (fun l =>
    match wordsOf l with
    | n :: v :: _ => some (n.asString, v.asString)
    | _ => none)

/-- The freshness test at the top of sync_aur_database: a recorded last
update that lies in the past by less than the network interval. -/
def cacheFresh (cache : AurCache) (now interval : Nat) : Bool :=
  match cache.lastUpdate with
  | some t => decide (t ≤ now ∧ now - t < interval)
  | none => false

/-- The update lines sync_aur_database builds from the local packages
and the API answer: for each local package found in the answer whose
remote version is judged newer, the line name space old arrow new. -/
def aurUpdateLines (locals : List (String × String)) (pkgs : List AurPkg) : List String :=
  locals.filterMap (fun nv =>
    match pkgs.find? (fun p => p.name = nv.1) with
    | some p =>
      if is_version_newer p.version nv.2 then
        some (nv.1 ++ " " ++ nv.2 ++ " -> " ++ p.version)
      else none
    | none => none)

/-- Join with newlines, as the Rust join over the update lines. -/
def joinNl (lines : List String) : String :=
  String.intercalate "\n" lines

/-- Embedding of sync_aur_database from main.rs.  If the cache is
fresh, nothing happens.  A pacman spawn error leaves the cache
untouched; otherwise pacman stdout is parsed regardless of its exit
status.  With no local packages the cache is reset to the zero state
with a fresh timestamp.  Otherwise the API is queried: on an API error
only the timestamp advances, on success the cache is replaced with the
newly computed count (cast to u16) and text. -/
def sync_aur_database (cache : AurCache) (now interval : Nat)
    (pacmanRes : SpawnResult) (api : ApiResult) : AurCache :=
  if cacheFresh cache now interval then cache
  else
    match pacmanRes with
    | SpawnResult.err _ => cache
    | SpawnResult.ok out =>
      let locals := parseQm out.stdout
      if locals = [] then ⟨some now, 0, ""⟩
      else
        match api with
        | ApiResult.err => ⟨some now, cache.count, cache.text⟩
        | ApiResult.ok pkgs =>
          let updates := aurUpdateLines locals pkgs
          ⟨some now, wrap16 updates.length, joinNl updates⟩

/-! ## main.rs: configuration and the scheduling loop -/

/-- Embedding of the startup validation in main (lines 95 to 99): the
only rejected configurations are a zero interval or a zero network
interval, which panic; every other pair is accepted and yields the tick
threshold network interval divided by interval. -/
def validateConfig (interval network : Nat) : Except String Nat :=
  if interval = 0 ∨ network = 0 then
    Except.error "intervals must be greater than 0"
  else Except.ok (network / interval)

/-- Calls performed by one iteration of the main loop. -/
structure TickEffects where
  syncCalls : Nat
  aurSyncCalls : Nat
  getUpdatesCalls : Nat
deriving DecidableEq

/-- Embedding of one iteration of the scheduling loop of main (lines
100 to 107): when the iteration counter has reached the threshold, the
network refresh pair runs and the counter resets to zero; the local
check get_updates runs unconditionally afterwards; the counter is
incremented at the end of the iteration. -/
def loopTick (updateOnIter iter : Nat) : TickEffects × Nat :=
  if iter ≥ updateOnIter then (⟨1, 1, 1⟩, 0 + 1) else (⟨0, 0, 1⟩, iter + 1)

/-- Counter value after a number of loop iterations from a start. -/
def runTicks (updateOnIter iter : Nat) : Nat → Nat
  | 0 => iter
  | k + 1 => (loopTick updateOnIter (runTicks updateOnIter iter k)).2

/-! ## main.rs: the tooltip column alignment -/

/-- UTF-8 byte length of a token, as the Rust str len the code uses. -/
def byteLen (w : List Char) : Nat := w.foldl (fun a c => a + c.utf8Size) 0

/-- The four running column maxima of the alignment pass. -/
structure Pad4 where
  p0 : Nat
  p1 : Nat
  p2 : Nat
  p3 : Nat
deriving DecidableEq

/-- Column maximum selected by a token index modulo four. -/
def Pad4.sel (p : Pad4) (i : Nat) : Nat :=
  match i % 4 with
  | 0 => p.p0
  | 1 => p.p1
  | 2 => p.p2
  | _ => p.p3

/-- Update of the column maximum selected by a token index modulo
four, as one step of the for_each over the enumerated tokens. -/
def Pad4.upd (p : Pad4) (i n : Nat) : Pad4 :=
  match i % 4 with
  | 0 => ⟨max p.p0 n, p.p1, p.p2, p.p3⟩
  | 1 => ⟨p.p0, max p.p1 n, p.p2, p.p3⟩
  | 2 => ⟨p.p0, p.p1, max p.p2 n, p.p3⟩
  | _ => ⟨p.p0, p.p1, p.p2, max p.p3 n⟩

/-- Embedding of the padding computation of main (lines 118 to 124):
a left fold over the enumerated tokens updating the running maximum of
each column, starting from four zeros, with the width of a token being
its byte length. -/
def codePadding (tokens : List (List Char)) : Pad4 :=
  tokens.enum.foldl (fun p iw => p.upd iw.1 (byteLen iw.2)) ⟨0, 0, 0, 0⟩

/-- Chunks of four, as the Rust chunks over the padded words; a final
partial chunk is kept. -/
def chunks4 : List α → List (List α)
  | [] => []
  | a :: b :: c :: d :: rest => [a, b, c, d] :: chunks4 rest
  | l => [l]

/-- Pad each enumerated token on the right with spaces up to the column
maximum its index selects, with a caller-supplied width measure. -/
def padTokens (width : List Char → Nat) (pad : Pad4) (tokens : List (List Char)) :
    List (List Char) :=
  tokens.enum.map (fun iw => iw.2 ++ List.replicate (pad.sel iw.1 - width iw.2) ' ')

/-- Rebuild the text: four padded tokens per line joined by single
spaces, lines joined by newlines. -/
def rejoin (padded : List (List Char)) : List Char :=
  List.intercalate ['\n'] ((chunks4 padded).map (List.intercalate [' ']))

/-- Embedding of the alignment branch of main (lines 117 to 141),
without the colouring option: compute the byte-width column maxima by
the left fold, pad every token on the right to the selected maximum and
rejoin four tokens per line. -/
def codeAlign (tokens : List (List Char)) : List Char :=
  rejoin (padTokens byteLen (codePadding tokens) tokens)

/-- Widths of the tokens falling in one column class: the enumerated
tokens whose index is congruent to the class modulo four. -/
def classWidths (width : List Char → Nat) (tokens : List (List Char)) (j : Nat) : List Nat :=
  ((tokens.enum).filter (fun iw => iw.1 % 4 = j)).map (fun iw => width iw.2)

/-- Maximum of a list of widths, zero for the empty list. -/
def maxList (l : List Nat) : Nat := l.foldr max 0

/-- Declarative column maxima, as the claim words them: for each field
position modulo four, the maximum width over all tokens at that
position. -/
def specPad (width : List Char → Nat) (tokens : List (List Char)) : Pad4 :=
  ⟨maxList (classWidths width tokens 0), maxList (classWidths width tokens 1),
    maxList (classWidths width tokens 2), maxList (classWidths width tokens 3)⟩

/-- Alignment as the claim describes it, parameterised by the width
measure: declarative per-column maxima, right padding, four tokens per
line. -/
def specAlign (width : List Char → Nat) (tokens : List (List Char)) : List Char :=
  rejoin (padTokens width (specPad width tokens) tokens)

/-! ## Claims -/

/-- C5: the magnitude classifier returns the first true case of the
ordered chain over the two parse outcomes (Major on a greater major,
else Minor on a greater minor, else Patch on a greater patch, else Pre
on a strictly greater pre-release component, else Other) and returns
Other whenever either side fails to parse; version strings enter
through the semver collaborator whose outcome is quantified here. -/
theorem c5_determine_update_type :
    (∀ vo vn : SemVer,
      (determine_update_type (some vo) (some vn) = UpdateType.Major ↔
        vo.major < vn.major) ∧
      (determine_update_type (some vo) (some vn) = UpdateType.Minor ↔
        ¬ vo.major < vn.major ∧ vo.minor < vn.minor) ∧
      (determine_update_type (some vo) (some vn) = UpdateType.Patch ↔
        ¬ vo.major < vn.major ∧ ¬ vo.minor < vn.minor ∧ vo.patch < vn.patch) ∧
      (determine_update_type (some vo) (some vn) = UpdateType.Pre ↔
        ¬ vo.major < vn.major ∧ ¬ vo.minor < vn.minor ∧ ¬ vo.patch < vn.patch ∧
          preLt vo.pre vn.pre = true) ∧
      (determine_update_type (some vo) (some vn) = UpdateType.Other ↔
        ¬ vo.major < vn.major ∧ ¬ vo.minor < vn.minor ∧ ¬ vo.patch < vn.patch ∧
          ¬ preLt vo.pre vn.pre = true)) ∧
    (∀ o, determine_update_type o none = UpdateType.Other) ∧
    (∀ n, determine_update_type none n = UpdateType.Other) := by
  refine ⟨fun vo vn => ?_, fun o => by cases o <;> rfl, fun n => by cases n <;> rfl⟩
  simp only [determine_update_type]
  split_ifs with h1 h2 h3 h4 <;> simp_all

/-- C10: AURepo local_updates is a no-op: the packages field is the
same before and after the call, so the sequence the repository exposes
is unchanged. -/
theorem c10_local_updates_noop :
    ∀ packages : List Package, AURepo.local_updates packages = packages :=
  fun _ => rfl

/-- C1 counterexample: on the tick where the counter reaches the
network threshold (here sixty), the loop performs one network refresh
pair and still performs one local get_updates check, not zero, so the
local check runs immediately on that very tick. -/
theorem c1_counterexample :
    (loopTick 60 60).1 = ⟨1, 1, 1⟩ ∧ (loopTick 60 60).1.getUpdatesCalls ≠ 0 := by
  decide

/-- Counter evolution below the threshold: starting from the post-fire
value one, each further tick increments the counter by one. -/
theorem runTicks_below (thr : Nat) : ∀ k, k + 1 ≤ thr → runTicks thr 1 k = k + 1 := by
  intro k
  induction k with
  | zero => intro _; rfl
  | succ m ih =>
    intro h
    have hm : m + 1 ≤ thr := by omega
    have hlt : ¬ m + 1 ≥ thr := by omega
    simp [runTicks, ih hm, loopTick, hlt]

/-- C1 amended: when the counter reaches the network threshold, exactly
one network refresh pair runs, and the local check get_updates also
runs exactly once on that tick, as it does on every tick; the counter
leaves the tick at one, and the next network refresh happens only a
full network period later: for a positive threshold, none of the
following ticks fires the network refresh until the counter reaches the
threshold again. -/
theorem c1_amended (thr iter : Nat) (hfire : iter ≥ thr) :
    (loopTick thr iter).1 = ⟨1, 1, 1⟩ ∧ (loopTick thr iter).2 = 1 ∧
    (∀ j, j < thr → (loopTick thr j).1 = ⟨0, 0, 1⟩ ∧ (loopTick thr j).2 = j + 1) ∧
    (∀ k, k + 1 < thr → (loopTick thr (runTicks thr 1 k)).1.syncCalls = 0) ∧
    (1 ≤ thr → (loopTick thr (runTicks thr 1 (thr - 1))).1.syncCalls = 1) := by
  refine ⟨by simp [loopTick, hfire], by simp [loopTick, hfire], ?_, ?_, ?_⟩
  · intro j hj
    have : ¬ j ≥ thr := by omega
    simp [loopTick, this]
  · intro k hk
    rw [runTicks_below thr k (by omega)]
    have : ¬ k + 1 ≥ thr := by omega
    simp [loopTick, this]
  · intro h1
    rw [runTicks_below thr (thr - 1) (by omega)]
    have : thr - 1 + 1 ≥ thr := by omega
    simp [loopTick, this]

/-- C1 witness: the amended statement at threshold three, fired at
counter three: the firing tick runs everything once, the following two
ticks do not fire the network refresh, the third does. -/
theorem c1_amended_witness :
    (loopTick 3 3).1 = ⟨1, 1, 1⟩ ∧ (loopTick 3 2).1 = ⟨0, 0, 1⟩ ∧
    (loopTick 3 (runTicks 3 1 1)).1.syncCalls = 0 ∧
    (loopTick 3 (runTicks 3 1 2)).1.syncCalls = 1 := by
  obtain ⟨h1, _, h3, h4, h5⟩ := c1_amended 3 3 (by decide)
  exact ⟨h1, (h3 2 (by decide)).1, h4 1 (by decide), h5 (by decide)⟩

/-- C3 counterexample: the configuration with a local interval of six
hundred seconds and a network interval of three hundred seconds (local
period greater than network period) is accepted, not rejected: the
startup validation returns a threshold of zero, and with that threshold
the network refresh fires on every tick. -/
theorem c3_counterexample :
    validateConfig 600 300 = Except.ok 0 ∧
    (loopTick 0 0).1.syncCalls = 1 ∧ (loopTick 0 (loopTick 0 0).2).1.syncCalls = 1 := by
  refine ⟨rfl, by decide, by decide⟩

/-- C3 amended: startup only rejects a zero interval or a zero network
interval (by panicking, with no fallback to defaults); any other pair
is accepted with threshold network divided by interval, and when the
local interval exceeds the network interval that threshold is zero, so
the network refresh runs on every tick of the loop. -/
theorem c3_amended (i n : Nat) (hi : 0 < i) (hn : 0 < n) :
    validateConfig i n = Except.ok (n / i) ∧
    (n < i → n / i = 0 ∧ ∀ s, (loopTick (n / i) s).1.syncCalls = 1) ∧
    (∀ m, validateConfig 0 m = Except.error "intervals must be greater than 0") ∧
    (∀ m, validateConfig m 0 = Except.error "intervals must be greater than 0") := by
  refine ⟨?_, ?_, ?_, ?_⟩
  · simp [validateConfig, Nat.pos_iff_ne_zero.mp hi, Nat.pos_iff_ne_zero.mp hn]
  · intro hni
    have h0 : n / i = 0 := Nat.div_eq_of_lt hni
    refine ⟨h0, fun s => ?_⟩
    rw [h0]
    simp [loopTick]
  · intro m; simp [validateConfig]
  · intro m; simp [validateConfig]

/-- C3 witness: the amended statement at the counterexample
configuration of six hundred and three hundred seconds. -/
theorem c3_amended_witness :
    validateConfig 600 300 = Except.ok (300 / 600) ∧ 300 / 600 = 0 ∧
    (loopTick (300 / 600) 5).1.syncCalls = 1 ∧
    validateConfig 0 7 = Except.error "intervals must be greater than 0" := by
  obtain ⟨h1, h2, h3, _⟩ := c3_amended 600 300 (by decide) (by decide)
  obtain ⟨h20, h21⟩ := h2 (by decide)
  exact ⟨h1, h20, h21 5, h3 7⟩

/-- C2 counterexample: a process-spawn failure inside the scheduling
loop is not recovered: both sync_database and get_updates reach their
expect call and panic, which crashes the hosting process. -/
theorem c2_counterexample :
    sync_database (SpawnResult.err "no such file or directory")
      = Except.error "failed to execute process" ∧
    get_updates (SpawnResult.err "no such file or directory")
      = Except.error "failed to execute process" :=
  ⟨rfl, rfl⟩

/-- C2 amended: no refresh operation crashes on a non-zero exit status
or on garbled (lossily decoded) output, and the library repository
refreshes retain the previous snapshot on every failure class: the
official repository keeps its packages on a spawn error and on a
non-success exit, and the AUR repository keeps its packages on a pacman
spawn error, on an aur spawn error and on a non-success aur exit.  The
AUR cache refresh never panics (its embedding is a total function): it
keeps the whole cache on a pacman spawn failure and keeps its count and
text on a remote-API error; its handling of a non-zero pacman exit is
not a recovery path — the output is parsed regardless, the C4
correction.  Process-spawn failure inside the scheduling loop, however,
is not recovered: both sync_database and get_updates panic on it
through their expect call, crashing the hosting process.  (The eprintln
diagnostics some failure arms print are I/O outside this embedding and
are not asserted.) -/
theorem c2_amended (prev : List Package) (out pout : CmdOutput) (e : String)
    (pres ares : SpawnResult) (cache : AurCache) (now interval : Nat)
    (api : ApiResult) (hfail : out.success = false)
    (hstale : cacheFresh cache now interval = false)
    (hqm : parseQm pout.stdout ≠ []) :
    common_updates prev (SpawnResult.err e) = prev ∧
    common_updates prev (SpawnResult.ok out) = prev ∧
    AURepo.sync_updates prev (SpawnResult.err e) ares = prev ∧
    AURepo.sync_updates prev pres (SpawnResult.err e) = prev ∧
    AURepo.sync_updates prev pres (SpawnResult.ok out) = prev ∧
    sync_aur_database cache now interval (SpawnResult.err e) api = cache ∧
    sync_aur_database cache now interval (SpawnResult.ok pout) ApiResult.err
      = ⟨some now, cache.count, cache.text⟩ ∧
    sync_database (SpawnResult.ok out) = Except.ok () ∧
    (∃ v, get_updates (SpawnResult.ok out) = Except.ok v) ∧
    sync_database (SpawnResult.err e) = Except.error "failed to execute process" ∧
    get_updates (SpawnResult.err e) = Except.error "failed to execute process" := by
  refine ⟨rfl, by simp [common_updates, hfail], rfl, ?_, ?_, ?_, ?_, rfl, ?_, rfl, rfl⟩
  · cases pres <;> rfl
  · cases pres <;> simp [AURepo.sync_updates, hfail]
  · by_cases hf : cacheFresh cache now interval <;> simp [sync_aur_database, hf]
  · simp [sync_aur_database, hstale, hqm]
  · rcases out with ⟨code, so⟩
    cases code with
    | none => exact ⟨(0, ""), rfl⟩
    | some c =>
      by_cases h : so = "" <;> simp [get_updates, h]

/-- C2 witness: the amended statement at a concrete failed output, a
concrete spawn error, a concrete stale cache and a concrete previous
snapshot. -/
theorem c2_amended_witness :
    common_updates [⟨"p", "1", "2", UpdateType.Other⟩] (SpawnResult.ok ⟨some 1, "junk"⟩)
      = [⟨"p", "1", "2", UpdateType.Other⟩] ∧
    AURepo.sync_updates [⟨"p", "1", "2", UpdateType.Other⟩] (SpawnResult.ok ⟨some 0, ""⟩)
        (SpawnResult.ok ⟨some 1, "junk"⟩)
      = [⟨"p", "1", "2", UpdateType.Other⟩] ∧
    sync_aur_database ⟨none, 7, "aur"⟩ 60 300 (SpawnResult.err "no pacman") ApiResult.err
      = ⟨none, 7, "aur"⟩ ∧
    sync_aur_database ⟨none, 7, "aur"⟩ 60 300
        (SpawnResult.ok ⟨some 0, "q 2.0-1\n"⟩) ApiResult.err
      = ⟨some 60, 7, "aur"⟩ ∧
    sync_database (SpawnResult.ok ⟨some 1, "junk"⟩) = Except.ok () ∧
    (∃ v, get_updates (SpawnResult.ok ⟨some 1, "junk"⟩) = Except.ok v) ∧
    get_updates (SpawnResult.err "gone") = Except.error "failed to execute process" := by
  obtain ⟨_, h2, _, _, h5, _, h7, h8, h9, _, h11⟩ :=
    c2_amended [⟨"p", "1", "2", UpdateType.Other⟩] ⟨some 1, "junk"⟩
      ⟨some 0, "q 2.0-1\n"⟩ "gone"
      (SpawnResult.ok ⟨some 0, ""⟩) (SpawnResult.ok ⟨some 1, "junk"⟩)
      ⟨none, 7, "aur"⟩ 60 300 ApiResult.err
      (by decide) (by decide) (by decide)
  obtain ⟨_, _, _, _, _, h6b, _, _, _, _, _⟩ :=
    c2_amended [⟨"p", "1", "2", UpdateType.Other⟩] ⟨some 1, "junk"⟩
      ⟨some 0, "q 2.0-1\n"⟩ "no pacman"
      (SpawnResult.ok ⟨some 0, ""⟩) (SpawnResult.ok ⟨some 1, "junk"⟩)
      ⟨none, 7, "aur"⟩ 60 300 ApiResult.err
      (by decide) (by decide) (by decide)
  exact ⟨h2, h5, h6b, h7, h8, h9, h11⟩

/-- C4 counterexample: a failing pacman enumeration (non-zero exit,
empty stdout) during the AUR cache refresh does not leave the snapshot
untouched: the cached count of three and the cached text are reset to
zero and the empty string, because the code ignores the pacman exit
status and treats the empty output as an empty package list. -/
theorem c4_counterexample :
    sync_aur_database ⟨none, 3, "x 1 -> 2"⟩ 100 300
        (SpawnResult.ok ⟨some 1, ""⟩) ApiResult.err
      = ⟨some 100, 0, ""⟩ ∧
    ((3 : Nat) ≠ 0 ∧ "x 1 -> 2" ≠ "") := by
  exact ⟨rfl, by decide, by decide⟩

/-- C4 amended: each repository refresh keeps its previous snapshot
exactly on its failure paths, and replaces it only on success: the
official repository keeps its packages on a spawn error and on a
non-success exit and replaces them with the parsed stdout on success;
the AUR repository behaves the same for its two commands; the AUR
cache keeps its count and text on a pacman spawn error and on an AUR
API error (the timestamp advances in the latter case), and is left
entirely unchanged while fresh — but the pacman exit status is not
treated as a failure: its stdout is parsed regardless, and when no
package can be parsed from it the cache is reset to a zero count and
empty text. -/
theorem c4_amended (prev : List Package) (out : CmdOutput) (e : String)
    (pres : SpawnResult) (cache : AurCache) (now interval : Nat)
    (api : ApiResult) (r : SpawnResult)
    (hstale : cacheFresh cache now interval = false) :
    common_updates prev (SpawnResult.err e) = prev ∧
    (out.success = false → common_updates prev (SpawnResult.ok out) = prev) ∧
    (out.success = true → common_updates prev (SpawnResult.ok out) = parsePackages out.stdout) ∧
    AURepo.sync_updates prev (SpawnResult.err e) r = prev ∧
    AURepo.sync_updates prev pres (SpawnResult.err e) = prev ∧
    (out.success = false → AURepo.sync_updates prev pres (SpawnResult.ok out) = prev) ∧
    sync_aur_database cache now interval (SpawnResult.err e) api = cache ∧
    (parseQm out.stdout ≠ [] →
      sync_aur_database cache now interval (SpawnResult.ok out) ApiResult.err
        = ⟨some now, cache.count, cache.text⟩) ∧
    (parseQm out.stdout = [] →
      sync_aur_database cache now interval (SpawnResult.ok out) api = ⟨some now, 0, ""⟩) ∧
    (∀ c2 : AurCache, ∀ n2 i2 : Nat, cacheFresh c2 n2 i2 = true →
      sync_aur_database c2 n2 i2 r api = c2) := by
  refine ⟨rfl, ?_, ?_, rfl, ?_, ?_, ?_, ?_, ?_, ?_⟩
  · intro h; simp [common_updates, h]
  · intro h; simp [common_updates, h]
  · cases pres <;> rfl
  · intro h; cases pres <;> simp [AURepo.sync_updates, h]
  · simp [sync_aur_database, hstale]
  · intro h; simp [sync_aur_database, hstale, h]
  · intro h
    cases api <;> simp [sync_aur_database, hstale, h]
  · intro c2 n2 i2 hf
    simp [sync_aur_database, hf]

/-- C4 witness: the amended statement at concrete outputs, a concrete
stale cache and a concrete previous snapshot. -/
theorem c4_amended_witness :
    common_updates [⟨"q", "1", "2", UpdateType.Other⟩] (SpawnResult.err "gone")
      = [⟨"q", "1", "2", UpdateType.Other⟩] ∧
    (common_updates [⟨"q", "1", "2", UpdateType.Other⟩] (SpawnResult.ok ⟨some 2, "bad"⟩)
      = [⟨"q", "1", "2", UpdateType.Other⟩]) ∧
    sync_aur_database ⟨none, 2, "keep"⟩ 50 300 (SpawnResult.err "gone") ApiResult.err
      = ⟨none, 2, "keep"⟩ ∧
    sync_aur_database ⟨none, 2, "keep"⟩ 50 300
        (SpawnResult.ok ⟨some 0, "p 1.0-1\n"⟩) ApiResult.err
      = ⟨some 50, 2, "keep"⟩ ∧
    sync_aur_database ⟨some 40, 2, "keep"⟩ 50 300
        (SpawnResult.ok ⟨some 0, "p 1.0-1\n"⟩) ApiResult.err
      = ⟨some 40, 2, "keep"⟩ := by
  obtain ⟨h1, h2, _, _, _, _, h7, h8, _, h10⟩ :=
    c4_amended [⟨"q", "1", "2", UpdateType.Other⟩] ⟨some 2, "bad"⟩ "gone"
      (SpawnResult.ok ⟨some 0, ""⟩) ⟨none, 2, "keep"⟩ 50 300 ApiResult.err
      (SpawnResult.ok ⟨some 0, "p 1.0-1\n"⟩) (by decide)
  refine ⟨h1, h2 (by decide), ?_, ?_, h10 ⟨some 40, 2, "keep"⟩ 50 300 (by decide)⟩
  · obtain ⟨_, _, _, _, _, _, h7b, _, _, _⟩ :=
      c4_amended [⟨"q", "1", "2", UpdateType.Other⟩] ⟨some 0, "p 1.0-1\n"⟩ "gone"
        (SpawnResult.ok ⟨some 0, ""⟩) ⟨none, 2, "keep"⟩ 50 300 ApiResult.err
        (SpawnResult.ok ⟨some 0, "p 1.0-1\n"⟩) (by decide)
    exact h7b
  · obtain ⟨_, _, _, _, _, _, _, h8b, _, _⟩ :=
      c4_amended [⟨"q", "1", "2", UpdateType.Other⟩] ⟨some 0, "p 1.0-1\n"⟩ "gone"
        (SpawnResult.ok ⟨some 0, ""⟩) ⟨none, 2, "keep"⟩ 50 300 ApiResult.err
        (SpawnResult.ok ⟨some 0, "p 1.0-1\n"⟩) (by decide)
    exact h8b (by decide)

/-- C6 counterexample: both version strings of the repository unit test
contain an r-digits-dot revision tag (values sixty-two and sixty-three
respectively), yet the comparator judges the first newer, although
sixty-two does not exceed sixty-three: on these inputs the decision is
not made by comparing the contained tags, because only a tag at the
start of the string is extracted. -/
theorem c6_counterexample :
    containsRevTag "0.48.0.r62.gd775686-1" = true ∧
    containsRevTag "0.47.0.r63.ccdddddd-2" = true ∧
    revTagAnywhere "0.48.0.r62.gd775686-1".toList = some 62 ∧
    revTagAnywhere "0.47.0.r63.ccdddddd-2".toList = some 63 ∧
    is_version_newer "0.48.0.r62.gd775686-1" "0.47.0.r63.ccdddddd-2" = true ∧
    decide (62 > 63) = false := by
  decide

/-- C6 amended: for every pair of version strings that both start with
a revision tag (the letter r, digits, a dot, anchored at the start of
the string), is_version_newer is decided solely by comparing the two
extracted integers — true exactly when the candidate's integer exceeds
the baseline's — with all content after the tag ignored. -/
theorem c6_amended (c b : String) (nc nb : Nat)
    (hc : startRevision c = some nc) (hb : startRevision b = some nb) :
    is_version_newer c b = decide (nb < nc) := by
  simp [is_version_newer, hc, hb]

/-- C6 witness: the amended statement on the unit-test pair r100 and
r99, whose extracted integers are one hundred and ninety-nine. -/
theorem c6_amended_witness :
    startRevision "r100.abc123-1" = some 100 ∧
    startRevision "r99.def456-1" = some 99 ∧
    is_version_newer "r100.abc123-1" "r99.def456-1" = decide (99 < 100) :=
  ⟨by decide, by decide,
    c6_amended "r100.abc123-1" "r99.def456-1" 100 99 (by decide) (by decide)⟩

/-- Generator for the oversized stdout of the C9 counterexample: the
arrow separator repeated. -/
def arrowRep : Nat → List Char
  | 0 => []
  | n + 1 => ' ' :: '-' :: '>' :: ' ' :: arrowRep n

/-- The separator count of the repeated separator is the repetition
count. -/
theorem countArrowSep_arrowRep : ∀ n, countArrowSep (arrowRep n) = n := by
  intro n
  induction n with
  | zero => rfl
  | succ m ih => simp [arrowRep, countArrowSep, ih]

/-- The repeated separator is nonempty for a positive count. -/
theorem arrowRep_ne_nil (n : Nat) : arrowRep (n + 1) ≠ [] := by
  simp [arrowRep]

/-- Evaluation of get_updates on a started command with an exit code
and a nonempty stdout. -/
theorem get_updates_ok_some (c : Int) (s : String) (h : s ≠ "") :
    get_updates (SpawnResult.ok ⟨some c, s⟩)
      = Except.ok (sub16 (wrap16 (arrowSegments s)) 1, s) := by
  simp [get_updates, h]

/-- Segment count of a string built from an explicit character list. -/
theorem arrowSegments_mk (l : List Char) :
    arrowSegments (String.mk l) = countArrowSep l + 1 := rfl

/-- C9 counterexample: a started command whose stdout consists of the
arrow separator repeated two-to-the-sixteenth times makes get_updates
return a count of zero, while the number of separator occurrences in
that stdout is two-to-the-sixteenth: the u16 cast truncates the segment
count, so the returned count is not the occurrence count. -/
theorem c9_counterexample :
    get_updates (SpawnResult.ok ⟨some 0, String.mk (arrowRep 65536)⟩)
      = Except.ok (0, String.mk (arrowRep 65536)) ∧
    countArrowSep (arrowRep 65536) = 65536 ∧ (0 : Nat) ≠ 65536 := by
  have hne : String.mk (arrowRep 65536) ≠ "" :=
    fun h => arrowRep_ne_nil 65535 (congrArg String.data h)
  have h1 := get_updates_ok_some 0 (String.mk (arrowRep 65536)) hne
  rw [arrowSegments_mk, countArrowSep_arrowRep] at h1
  have h2 : sub16 (wrap16 (65536 + 1)) 1 = 0 := by norm_num [sub16, wrap16]
  rw [h2] at h1
  exact ⟨h1, countArrowSep_arrowRep 65536, by decide⟩

/-- C9 amended: for every run of get_updates in which the external
command starts and exits with a code: if the captured stdout is empty
the result is the pair of zero and the empty string; otherwise the
returned count equals the number of occurrences of the arrow separator
in the entire stdout reduced modulo two-to-the-sixteenth (the u16 cast,
with wrapping arithmetic), which equals the exact occurrence count
whenever there are fewer than two-to-the-sixteenth occurrences, and the
returned text is the stdout verbatim. -/
theorem c9_amended (out : CmdOutput) (c : Int) (hc : out.exitCode = some c) :
    (out.stdout = "" → get_updates (SpawnResult.ok out) = Except.ok (0, "")) ∧
    (out.stdout ≠ "" →
      get_updates (SpawnResult.ok out)
        = Except.ok (wrap16 (countArrowSep out.stdout.toList), out.stdout)) ∧
    (out.stdout ≠ "" → countArrowSep out.stdout.toList < 2 ^ 16 →
      get_updates (SpawnResult.ok out)
        = Except.ok (countArrowSep out.stdout.toList, out.stdout)) := by
  have hsub : ∀ m : Nat, sub16 (wrap16 (m + 1)) 1 = wrap16 m := by
    intro m
    simp only [sub16, wrap16]
    omega
  have hmain : out.stdout ≠ "" →
      get_updates (SpawnResult.ok out)
        = Except.ok (wrap16 (countArrowSep out.stdout.toList), out.stdout) := by
    intro h
    simp [get_updates, hc, h, arrowSegments, hsub]
  refine ⟨?_, hmain, ?_⟩
  · intro h; simp [get_updates, hc, h]
  · intro h hlt
    have hw : wrap16 (countArrowSep out.stdout.toList) = countArrowSep out.stdout.toList :=
      Nat.mod_eq_of_lt hlt
    rw [hmain h, hw]

/-- C9 witness: the amended statement at a concrete two-line stdout
with two separator occurrences. -/
theorem c9_amended_witness :
    get_updates (SpawnResult.ok ⟨some 0, "foo 1 -> 2\nbar 2 -> 3\n"⟩)
      = Except.ok (countArrowSep "foo 1 -> 2\nbar 2 -> 3\n".toList, "foo 1 -> 2\nbar 2 -> 3\n") ∧
    countArrowSep "foo 1 -> 2\nbar 2 -> 3\n".toList = 2 := by
  refine ⟨(c9_amended ⟨some 0, "foo 1 -> 2\nbar 2 -> 3\n"⟩ 0 rfl).2.2 (by decide) (by decide), by decide⟩

/-! ## C7: characterisation of the accepted lines -/

/-- A nonempty all-non-whitespace field, as captured by one
backslash-S plus group. -/
def NonWsTok (t : List Char) : Prop := t ≠ [] ∧ ∀ c ∈ t, wsChar c = false

/-- A nonempty all-whitespace separator run. -/
def WsRun (w : List Char) : Prop := w ≠ [] ∧ ∀ c ∈ w, wsChar c = true

/-- A fixed decomposition of a line in the accepted language: name,
whitespace, old version, whitespace, the literal arrow, whitespace,
new version, with nothing before or after. -/
def lineShapeAt (l n w1 o w2 w3 v : List Char) : Prop :=
  NonWsTok n ∧ WsRun w1 ∧ NonWsTok o ∧ WsRun w2 ∧ WsRun w3 ∧ NonWsTok v ∧
    l = n ++ w1 ++ o ++ w2 ++ ('-' :: '>' :: (w3 ++ v))

/-- The declarative shape the claim describes: the line is a name
field, an old-version field, the arrow and a new-version field, the
four separated by whitespace runs, with nothing before or after. -/
def lineShape (l : List Char) : Prop :=
  ∃ n w1 o w2 w3 v, lineShapeAt l n w1 o w2 w3 v

/-- The head element of a concatenation with a nonempty left part
belongs to the left part. -/
theorem head_append_mem {xs zs : List Char} {y : Char} {ys : List Char}
    (hne : xs ≠ []) (h : xs ++ zs = y :: ys) : y ∈ xs := by
  cases xs with
  | nil => exact absurd rfl hne
  | cons a t =>
    injection h with h1 _
    exact h1 ▸ List.mem_cons_self a t

/-- The head of a dropWhile remainder fails the predicate. -/
theorem head_dropWhile_false {p : Char → Bool} :
    ∀ (l : List Char) y ys, l.dropWhile p = y :: ys → p y = false := by
  intro l
  induction l with
  | nil => intro y ys h; cases h
  | cons a t ih =>
    intro y ys h
    rw [List.dropWhile_cons] at h
    by_cases hp : p a
    · rw [if_pos hp] at h
      exact ih y ys h
    · rw [if_neg hp] at h
      injection h with h1 _
      subst h1
      exact Bool.eq_false_iff.mpr hp

/-- Characterisation of the greedy span: it returns a pair exactly when
the list splits into a nonempty prefix all satisfying the predicate and
a remainder whose head (if any) fails it. -/
theorem spanPos_some {p : Char → Bool} {l t r : List Char} :
    spanPos p l = some (t, r) ↔
      l = t ++ r ∧ t ≠ [] ∧ (∀ c ∈ t, p c = true) ∧
        ∀ y ys, r = y :: ys → p y = false := by
  constructor
  · intro h
    unfold spanPos at h
    split_ifs at h with h0
    injection h with h1
    injection h1 with ht hr
    subst ht
    subst hr
    refine ⟨(List.takeWhile_append_dropWhile p l).symm, h0, ?_, ?_⟩
    · intro c hc
      exact List.mem_takeWhile_imp hc
    · intro y ys hy
      exact head_dropWhile_false l y ys hy
  · rintro ⟨hl, hne, hall, hhead⟩
    subst hl
    have h1 : (t ++ r).takeWhile p = t := by
      rw [List.takeWhile_append_of_pos hall]
      cases r with
      | nil => simp
      | cons y ys => simp [List.takeWhile_cons, hhead y ys rfl]
    have h2 : (t ++ r).dropWhile p = r := by
      rw [List.dropWhile_append_of_pos hall]
      cases r with
      | nil => simp
      | cons y ys => simp [List.dropWhile_cons, hhead y ys rfl]
    unfold spanPos
    simp only [h1, h2, if_neg hne]

/-- A successful parse yields a decomposition of the line into the
declarative shape with exactly the captured fields. -/
theorem tryFromChars_sound {l n o v : List Char}
    (h : tryFromChars l = some (n, o, v)) :
    ∃ w1 w2 w3, lineShapeAt l n w1 o w2 w3 v := by
  unfold tryFromChars at h
  split at h
  · exact Option.noConfusion h
  next t1 r1 h1 =>
    split at h
    · exact Option.noConfusion h
    next w1 r2 h2 =>
      split at h
      · exact Option.noConfusion h
      next t2 r3 h3 =>
        split at h
        · exact Option.noConfusion h
        next w2 r4 h4 =>
          split at h
          next r5 =>
            split at h
            · exact Option.noConfusion h
            next w3 r6 h5 =>
              split at h
              · exact Option.noConfusion h
              next t3 r7 h6 =>
                split_ifs at h with h7
                injection h with h8
                injection h8 with hn h9
                injection h9 with ho hv
                subst hn
                subst ho
                subst hv
                subst h7
                obtain ⟨e1, hne1, hall1, _⟩ := spanPos_some.1 h1
                obtain ⟨e2, hne2, hall2, _⟩ := spanPos_some.1 h2
                obtain ⟨e3, hne3, hall3, _⟩ := spanPos_some.1 h3
                obtain ⟨e4, hne4, hall4, _⟩ := spanPos_some.1 h4
                obtain ⟨e5, hne5, hall5, _⟩ := spanPos_some.1 h5
                obtain ⟨e6, hne6, hall6, _⟩ := spanPos_some.1 h6
                refine ⟨w1, w2, w3, ⟨hne1, ?_⟩, ⟨hne2, hall2⟩, ⟨hne3, ?_⟩,
                  ⟨hne4, hall4⟩, ⟨hne5, hall5⟩, ⟨hne6, ?_⟩, ?_⟩
                · intro c hc; simpa using hall1 c hc
                · intro c hc; simpa using hall3 c hc
                · intro c hc; simpa using hall6 c hc
                · rw [e1, e2, e3, e4, e5, e6]
                  simp [List.append_assoc]
          next hnotarrow =>
            exact Option.noConfusion h

/-- Every line of the declarative shape parses, capturing exactly the
fields of the decomposition. -/
theorem tryFromChars_complete {l n w1 o w2 w3 v : List Char}
    (hs : lineShapeAt l n w1 o w2 w3 v) :
    tryFromChars l = some (n, o, v) := by
  obtain ⟨⟨hn, hnA⟩, ⟨hw1, hw1A⟩, ⟨ho, hoA⟩, ⟨hw2, hw2A⟩, ⟨hw3, hw3A⟩, ⟨hv, hvA⟩, hl⟩ := hs
  have hl2 : l = n ++ (w1 ++ (o ++ (w2 ++ ('-' :: '>' :: (w3 ++ v))))) := by
    rw [hl]; simp [List.append_assoc]
  subst hl2
  have e1 : spanTok (n ++ (w1 ++ (o ++ (w2 ++ ('-' :: '>' :: (w3 ++ v))))))
      = some (n, w1 ++ (o ++ (w2 ++ ('-' :: '>' :: (w3 ++ v))))) := by
    apply spanPos_some.2
    refine ⟨rfl, hn, ?_, ?_⟩
    · intro c hc; simp [hnA c hc]
    · intro y ys hy
      have : y ∈ w1 := head_append_mem hw1 hy
      simp [hw1A y this]
  have e2 : spanWs (w1 ++ (o ++ (w2 ++ ('-' :: '>' :: (w3 ++ v)))))
      = some (w1, o ++ (w2 ++ ('-' :: '>' :: (w3 ++ v)))) := by
    apply spanPos_some.2
    refine ⟨rfl, hw1, hw1A, ?_⟩
    intro y ys hy
    have : y ∈ o := head_append_mem ho hy
    exact hoA y this
  have e3 : spanTok (o ++ (w2 ++ ('-' :: '>' :: (w3 ++ v))))
      = some (o, w2 ++ ('-' :: '>' :: (w3 ++ v))) := by
    apply spanPos_some.2
    refine ⟨rfl, ho, ?_, ?_⟩
    · intro c hc; simp [hoA c hc]
    · intro y ys hy
      have : y ∈ w2 := head_append_mem hw2 hy
      simp [hw2A y this]
  have e4 : spanWs (w2 ++ ('-' :: '>' :: (w3 ++ v)))
      = some (w2, '-' :: '>' :: (w3 ++ v)) := by
    apply spanPos_some.2
    refine ⟨rfl, hw2, hw2A, ?_⟩
    intro y ys hy
    injection hy with h1 _
    subst h1
    rfl
  have e5 : spanWs (w3 ++ v) = some (w3, v) := by
    apply spanPos_some.2
    refine ⟨rfl, hw3, hw3A, ?_⟩
    intro y ys hy
    apply hvA
    rw [hy]
    exact List.mem_cons_self y ys
  have e6 : spanTok v = some (v, []) := by
    apply spanPos_some.2
    refine ⟨(List.append_nil v).symm, hv, ?_, ?_⟩
    · intro c hc; simp [hvA c hc]
    · intro y ys hy; cases hy
  unfold tryFromChars
  simp only [e1, e2, e3, e4, e5, e6]
  simp

/-- C7: Package try_from succeeds exactly on lines of the shape name,
old version, arrow, new version — nonempty whitespace-free fields
separated by nonempty whitespace runs, with nothing before or after —
and on success it carries exactly the captured fields; every
non-matching line yields an error, and the snapshot derivation drops
error lines silently while keeping every matching line, so a bad line
neither aborts the refresh nor loses the others. -/
theorem c7_parse_shape :
    (∀ l : List Char, (∃ p, Package.tryFrom (String.mk l) = Except.ok p) ↔ lineShape l) ∧
    (∀ l n w1 o w2 w3 v, lineShapeAt l n w1 o w2 w3 v →
      Package.tryFrom (String.mk l)
        = Except.ok ⟨n.asString, o.asString, v.asString,
            determine_update_type_str o.asString v.asString⟩) ∧
    (∀ l : List Char, ¬ lineShape l →
      Package.tryFrom (String.mk l) = Except.error "invalid format") ∧
    (∀ line rest e, Package.tryFrom line = Except.error e →
      packagesOfLines (line :: rest) = packagesOfLines rest) ∧
    (∀ line rest p, Package.tryFrom line = Except.ok p →
      packagesOfLines (line :: rest) = p :: packagesOfLines rest) := by
  have hcap : ∀ l n w1 o w2 w3 v, lineShapeAt l n w1 o w2 w3 v →
      Package.tryFrom (String.mk l)
        = Except.ok ⟨n.asString, o.asString, v.asString,
            determine_update_type_str o.asString v.asString⟩ := by
    intro l n w1 o w2 w3 v hs
    have h := tryFromChars_complete hs
    simp [Package.tryFrom, h]
  refine ⟨?_, hcap, ?_, ?_, ?_⟩
  · intro l
    constructor
    · rintro ⟨p, hp⟩
      rcases htc : tryFromChars l with _ | ⟨a, b, c⟩
      · simp [Package.tryFrom, htc] at hp
      · obtain ⟨w1, w2, w3, hs⟩ := tryFromChars_sound htc
        exact ⟨a, w1, b, w2, w3, c, hs⟩
    · rintro ⟨n, w1, o, w2, w3, v, hs⟩
      exact ⟨_, hcap l n w1 o w2 w3 v hs⟩
  · intro l hns
    rcases htc : tryFromChars l with _ | ⟨a, b, c⟩
    · simp [Package.tryFrom, htc]
    · obtain ⟨w1, w2, w3, hs⟩ := tryFromChars_sound htc
      exact absurd ⟨a, w1, b, w2, w3, c, hs⟩ hns
  · intro line rest e h
    simp [packagesOfLines, List.filterMap_cons, h, Except.toOption]
  · intro line rest p h
    simp [packagesOfLines, List.filterMap_cons, h, Except.toOption]

/-- C7 witness: a concrete matching line parses with its three captured
fields, a line with leading whitespace and a garbage line yield errors,
and the snapshot derivation over a three-line output drops the garbage
line while keeping both matching lines. -/
theorem c7_parse_shape_witness :
    (∃ p, Package.tryFrom (String.mk "foo 1.0 -> 2.0".toList) = Except.ok p) ∧
    Package.tryFrom (String.mk "garbage".toList) = Except.error "invalid format" ∧
    packagesOfLines ["garbage", "x 1 -> 2"] = packagesOfLines ["x 1 -> 2"] := by
  refine ⟨(c7_parse_shape.1 "foo 1.0 -> 2.0".toList).2 ?_, ?_, ?_⟩
  · exact ⟨"foo".toList, [' '], "1.0".toList, [' '], [' '], "2.0".toList,
      ⟨by decide, by decide⟩, ⟨by decide, by decide⟩, ⟨by decide, by decide⟩,
      ⟨by decide, by decide⟩, ⟨by decide, by decide⟩, ⟨by decide, by decide⟩, by decide⟩
  · refine c7_parse_shape.2.2.1 "garbage".toList ?_
    rintro ⟨n, w1, o, w2, w3, v, ⟨hn, _⟩, ⟨hw1, hw1A⟩, _, _, _, _, hl⟩
    have : ∀ c ∈ "garbage".toList, wsChar c = false := by decide
    cases n with
    | nil => exact hn rfl
    | cons a t =>
      cases w1 with
      | nil => exact hw1 rfl
      | cons b u =>
        have hb : b ∈ "garbage".toList := by
          rw [hl]
          simp
        have := this b hb
        have h2 := hw1A b (List.mem_cons_self b u)
        rw [this] at h2
        exact Bool.noConfusion h2
  · exact c7_parse_shape.2.2.2.1 "garbage" ["x 1 -> 2"] "invalid format"
      (c7_parse_shape.2.2.1 "garbage".toList (by
        rintro ⟨n, w1, o, w2, w3, v, ⟨hn, _⟩, ⟨hw1, hw1A⟩, _, _, _, _, hl⟩
        have hall : ∀ c ∈ "garbage".toList, wsChar c = false := by decide
        cases n with
        | nil => exact hn rfl
        | cons a t =>
          cases w1 with
          | nil => exact hw1 rfl
          | cons b u =>
            have hb : b ∈ "garbage".toList := by
              rw [hl]
              simp
            have h1 := hall b hb
            have h2 := hw1A b (List.mem_cons_self b u)
            rw [h1] at h2
            exact Bool.noConfusion h2))

/-! ## C8: the padding fold computes the per-column maxima -/

/-- Column-class widths of tokens enumerated from a start index. -/
def classWidthsFrom (width : List Char → Nat) (k : Nat) (tokens : List (List Char))
    (j : Nat) : List Nat :=
  ((List.enumFrom k tokens).filter (fun iw => iw.1 % 4 = j)).map (fun iw => width iw.2)

/-- Head unfolding of the column-class widths. -/
theorem classWidthsFrom_cons (width : List Char → Nat) (k : Nat) (w : List Char)
    (rest : List (List Char)) (j : Nat) :
    classWidthsFrom width k (w :: rest) j =
      if k % 4 = j then width w :: classWidthsFrom width (k + 1) rest j
      else classWidthsFrom width (k + 1) rest j := by
  simp only [classWidthsFrom, List.enumFrom, List.filter_cons]
  split_ifs with h <;> simp_all

/-- The left fold of the alignment pass computes, in each component,
the maximum of the accumulator component and the per-column maximum of
the remaining tokens. -/
theorem foldPad (width : List Char → Nat) :
    ∀ (tokens : List (List Char)) (k : Nat) (p : Pad4),
      List.foldl (fun q iw => q.upd iw.1 (width iw.2)) p (List.enumFrom k tokens)
        = ⟨max p.p0 (maxList (classWidthsFrom width k tokens 0)),
           max p.p1 (maxList (classWidthsFrom width k tokens 1)),
           max p.p2 (maxList (classWidthsFrom width k tokens 2)),
           max p.p3 (maxList (classWidthsFrom width k tokens 3))⟩ := by
  intro tokens
  induction tokens with
  | nil =>
    intro k p
    cases p
    simp [classWidthsFrom, List.enumFrom, maxList]
  | cons w rest ih =>
    intro k p
    rw [show List.enumFrom k (w :: rest) = (k, w) :: List.enumFrom (k + 1) rest from rfl]
    rw [List.foldl_cons, ih (k + 1) (Pad4.upd p k (width w))]
    have h4 : k % 4 = 0 ∨ k % 4 = 1 ∨ k % 4 = 2 ∨ k % 4 = 3 := by omega
    rcases h4 with h | h | h | h <;>
      simp [Pad4.upd, h, classWidthsFrom_cons, maxList, Nat.max_assoc]

/-- The operational padding of the code equals the declarative
per-column maxima with the byte-length width. -/
theorem codePadding_eq_specPad (tokens : List (List Char)) :
    codePadding tokens = specPad byteLen tokens := by
  have h := foldPad byteLen tokens 0 ⟨0, 0, 0, 0⟩
  simpa [codePadding, specPad, classWidths, classWidthsFrom, List.enum] using h

/-- C8 counterexample: on the two-record input whose first name field
is a single two-byte character, the alignment the code performs (byte
widths) differs from the alignment described by the claim (character
widths): the code leaves the one-character name unpadded because its
byte width already equals the column maximum. -/
theorem c8_counterexample :
    codeAlign (wordsOf "é 1.0 -> 1.1\nab 2.0 -> 2.2")
      ≠ specAlign List.length (wordsOf "é 1.0 -> 1.1\nab 2.0 -> 2.2") := by
  decide

/-- C8 amended: with alignment enabled and at least one token rendered,
the formatter computes, over all whitespace-delimited tokens, the
maximum UTF-8 byte width (equal to the character width on ASCII
tokens) for each field position taken modulo four, pads every token on
the right with spaces up to its column maximum and joins four tokens
per output line; rendering the same token sequence twice is
deterministic. -/
theorem c8_amended (tokens : List (List Char)) (h : tokens ≠ []) :
    codeAlign tokens = specAlign byteLen tokens ∧
    (∀ r1 r2 : List Char, r1 = codeAlign tokens → r2 = codeAlign tokens → r1 = r2) := by
  refine ⟨?_, fun r1 r2 h1 h2 => h1.trans h2.symm⟩
  unfold codeAlign specAlign
  rw [codePadding_eq_specPad]

/-- C8 witness: the amended statement on the claim example records. -/
theorem c8_amended_witness :
    codeAlign (wordsOf "a 1.0 -> 1.1\nbbb 1.0.0 -> 2.0.0")
      = specAlign byteLen (wordsOf "a 1.0 -> 1.1\nbbb 1.0.0 -> 2.0.0") ∧
    wordsOf "a 1.0 -> 1.1\nbbb 1.0.0 -> 2.0.0" ≠ [] :=
  ⟨(c8_amended (wordsOf "a 1.0 -> 1.1\nbbb 1.0.0 -> 2.0.0") (by decide)).1, by decide⟩
